import Mathlib

/-!
Verification development for the RogueTech macOS installer
(roguetech_install_macos.py and basic_json_merge.py).

The Python source is shallowly embedded as executable Lean definitions:

* JSON values decoded by json5 become the inductive JsonValue; Python dicts
  become insertion-ordered association lists of key/value pairs.
* merge_dicts mutates its first argument in place and may raise ValueError
  part-way through; it is embedded as a state-threading function returning
  the final state of the first argument together with the error, if one was
  raised.  This captures the partial mutations the caller observes after an
  exception.
* The installer's configuration tree (RtConfig.xml after xmltodict parsing)
  becomes the structures InstallTask / InstallOption / RTConfig, and the
  stateful methods Installer.set_option, Installer.is_option_enabled and
  App.toggle_task become functions from configurations to configurations
  paired with an optional error mirroring the raised ValueError.
* Filesystem-touching job handlers are embedded as functions producing the
  list of copy/merge effects they would perform, with the exit status of
  the one external process invocation supplied as an explicit input.
-/

/-- A JSON value as decoded by json5: null, booleans, numbers, strings,
arrays, and objects.  Objects keep Python dict semantics: insertion-ordered
key/value pairs with unique keys. -/
inductive JsonValue where
  | null : JsonValue
  | bool (b : Bool) : JsonValue
  | num (n : Int) : JsonValue
  | str (s : String) : JsonValue
  | arr (elems : List JsonValue) : JsonValue
  | obj (entries : List (String × JsonValue)) : JsonValue

/-- A Python dict of JSON values: an insertion-ordered association list. -/
abbrev JsonObj := List (String × JsonValue)

/-- Python dict lookup d[key]: the value at the first entry whose key
matches, none when absent. -/
def objFind : JsonObj → String → Option JsonValue
  | [], _ => none
  | (k, v) :: rest, key => if k = key then some v else objFind rest key

/-- Python dict assignment d[key] = v: overwrite the existing entry in
place (keeping its position), or append a fresh entry at the end. -/
def objSet : JsonObj → String → JsonValue → JsonObj
  | [], key, v => [(key, v)]
  | (k, w) :: rest, key, v =>
    if k = key then (k, v) :: rest else (k, w) :: objSet rest key v

/-- The ValueError raised by merge_dicts, carrying the offending key from
the message text (a[key] is a dict/list, but b[key] is not). -/
inductive MergeError where
  | dictMismatch (key : String) : MergeError
  | listMismatch (key : String) : MergeError
deriving DecidableEq

/-- The function merge_dicts(a, b) from basic_json_merge.py (and the identical private
copy in roguetech_install_macos.py): merges b into a, replacing any
non-container values.  The Python function mutates a in place and raises
ValueError on a container-kind mismatch; the embedding returns the final
state of a together with the error, if one was raised, so the partial
mutations left behind by an exception are observable. -/
def merge_dicts (a : JsonObj) (b : JsonObj) : JsonObj × Option MergeError :=
  match b with
  | [] => (a, none)
  | (key, b_value) :: rest =>
    match objFind a key with
    | none => merge_dicts (objSet a key b_value) rest
    | some a_value =>
      match a_value with
      | .obj a_entries =>
        match b_value with
        | .obj b_entries =>
          let res := merge_dicts a_entries b_entries
          let a' := objSet a key (.obj res.1)
          match res.2 with
          | some e => (a', some e)
          | none => merge_dicts a' rest
        | _ => (a, some (.dictMismatch key))
      | .arr a_elems =>
        match b_value with
        | .arr b_elems => merge_dicts (objSet a key (.arr (a_elems ++ b_elems))) rest
        | _ => (a, some (.listMismatch key))
      | _ => merge_dicts (objSet a key b_value) rest
termination_by sizeOf b
decreasing_by all_goals (simp_wf <;> omega)

theorem objFind_objSet_ne (a : JsonObj) (key k : String) (v : JsonValue) (h : k ≠ key) :
    objFind (objSet a key v) k = objFind a k := by
  induction a with
  | nil => simp [objSet, objFind, Ne.symm h]
  | cons hd tl ih =>
    obtain ⟨k', w⟩ := hd
    by_cases hk : k' = key
    · subst hk
      simp [objSet, objFind, Ne.symm h]
    · simp [objSet, objFind, hk, ih]

theorem objFind_objSet_self (a : JsonObj) (key : String) (v : JsonValue) :
    objFind (objSet a key v) key = some v := by
  induction a with
  | nil => simp [objSet, objFind]
  | cons hd tl ih =>
    obtain ⟨k', w⟩ := hd
    by_cases hk : k' = key
    · subst hk; simp [objSet, objFind]
    · simp [objSet, objFind, hk, ih]

/-- Merging only ever assigns keys that occur in the overlay: the value at
any other key of the first argument is untouched, whether or not the merge
raised an error. -/
theorem merge_dicts_find_of_not_mem (k : String) (a b : JsonObj)
    (h : ∀ p ∈ b, p.1 ≠ k) :
    objFind (merge_dicts a b).1 k = objFind a k := by
  induction a, b using merge_dicts.induct with
  | case1 a => simp [merge_dicts]
  | case2 a key b_value rest hfind ih =>
    have hkey : key ≠ k := h (key, b_value) (by simp)
    rw [merge_dicts.eq_def]
    simp only [hfind]
    rw [ih (fun p hp => h p (by simp [hp]))]
    exact objFind_objSet_ne _ _ _ _ (Ne.symm hkey)
  | case3 a key rest a_entries b_entries res e hres hfind =>
    have hres' : (merge_dicts a_entries b_entries).2 = some e := hres
    have hkey : key ≠ k := h (key, .obj b_entries) (by simp)
    rw [merge_dicts.eq_def]
    simp only [hfind, hres']
    exact objFind_objSet_ne _ _ _ _ (Ne.symm hkey)
  | case4 a key rest a_entries b_entries res a' hres hfind ih1 ih2 =>
    have hres' : (merge_dicts a_entries b_entries).2 = none := hres
    have hkey : key ≠ k := h (key, .obj b_entries) (by simp)
    rw [merge_dicts.eq_def]
    simp only [hfind, hres']
    rw [ih2 (fun p hp => h p (by simp [hp]))]
    exact objFind_objSet_ne _ _ _ _ (Ne.symm hkey)
  | case5 a key b_value rest a_entries hb hfind =>
    rw [merge_dicts.eq_def]
    simp only [hfind]
  | case6 a key rest a_elems b_elems hfind ih =>
    have hkey : key ≠ k := h (key, .arr b_elems) (by simp)
    rw [merge_dicts.eq_def]
    simp only [hfind]
    rw [ih (fun p hp => h p (by simp [hp]))]
    exact objFind_objSet_ne _ _ _ _ (Ne.symm hkey)
  | case7 a key b_value rest a_elems hb hfind =>
    rw [merge_dicts.eq_def]
    simp only [hfind]
  | case8 a key b_value rest a_value hfind hobj harr ih =>
    have hkey : key ≠ k := h (key, b_value) (by simp)
    rw [merge_dicts.eq_def]
    simp only [hfind]
    cases a_value with
    | obj es => exact absurd rfl (hobj es)
    | arr es => exact absurd rfl (harr es)
    | null =>
      rw [ih (fun p hp => h p (by simp [hp]))]
      exact objFind_objSet_ne _ _ _ _ (Ne.symm hkey)
    | bool b =>
      rw [ih (fun p hp => h p (by simp [hp]))]
      exact objFind_objSet_ne _ _ _ _ (Ne.symm hkey)
    | num n =>
      rw [ih (fun p hp => h p (by simp [hp]))]
      exact objFind_objSet_ne _ _ _ _ (Ne.symm hkey)
    | str s =>
      rw [ih (fun p hp => h p (by simp [hp]))]
      exact objFind_objSet_ne _ _ _ _ (Ne.symm hkey)


/-- Merging iterates over the overlay's entries in order: when the prefix
of the overlay merges without error, merging the whole overlay continues
from the state the prefix produced. -/
theorem merge_dicts_append_ok (rest : JsonObj) :
    ∀ (a pre a2 : JsonObj), merge_dicts a pre = (a2, none) →
      merge_dicts a (pre ++ rest) = merge_dicts a2 rest := by
  intro a pre
  induction a, pre using merge_dicts.induct with
  | case1 a =>
    intro a2 h
    simp [merge_dicts] at h
    subst h
    simp
  | case2 a key b_value pre hfind ih =>
    intro a2 h
    rw [merge_dicts.eq_def] at h
    simp only [hfind] at h
    rw [List.cons_append, merge_dicts.eq_def]
    simp only [hfind]
    exact ih a2 h
  | case3 a key pre a_entries b_entries res e hres hfind =>
    have hres' : (merge_dicts a_entries b_entries).2 = some e := hres
    intro a2 h
    rw [merge_dicts.eq_def] at h
    simp only [hfind, hres'] at h
    exact absurd (congrArg Prod.snd h) (by simp)
  | case4 a key pre a_entries b_entries res a' hres hfind ih1 ih2 =>
    have hres' : (merge_dicts a_entries b_entries).2 = none := hres
    intro a2 h
    rw [merge_dicts.eq_def] at h
    simp only [hfind, hres'] at h
    rw [List.cons_append, merge_dicts.eq_def]
    simp only [hfind, hres']
    exact ih2 a2 h
  | case5 a key b_value pre a_entries hb hfind =>
    intro a2 h
    rw [merge_dicts.eq_def] at h
    simp only [hfind] at h
    exact absurd (congrArg Prod.snd h) (by simp)
  | case6 a key pre a_elems b_elems hfind ih =>
    intro a2 h
    rw [merge_dicts.eq_def] at h
    simp only [hfind] at h
    rw [List.cons_append, merge_dicts.eq_def]
    simp only [hfind]
    exact ih a2 h
  | case7 a key b_value pre a_elems hb hfind =>
    intro a2 h
    rw [merge_dicts.eq_def] at h
    simp only [hfind] at h
    exact absurd (congrArg Prod.snd h) (by simp)
  | case8 a key b_value pre a_value hfind hobj harr ih =>
    intro a2 h
    rw [merge_dicts.eq_def] at h
    simp only [hfind] at h
    rw [List.cons_append, merge_dicts.eq_def]
    simp only [hfind]
    cases a_value with
    | obj es => exact absurd rfl (hobj es)
    | arr es => exact absurd rfl (harr es)
    | null => exact ih a2 h
    | bool b => exact ih a2 h
    | num n => exact ih a2 h
    | str s => exact ih a2 h

/-- When base holds an array at key k, the overlay holds an array at k too,
and the merge completes without error, the merged state holds at k the
base's elements followed by the overlay's elements. -/
theorem merge_dicts_arr_concat (k : String) (ys : List JsonValue) :
    ∀ (a b : JsonObj), (b.map Prod.fst).Nodup →
      ∀ (xs : List JsonValue) (r : JsonObj),
        objFind a k = some (.arr xs) → objFind b k = some (.arr ys) →
        merge_dicts a b = (r, none) → objFind r k = some (.arr (xs ++ ys)) := by
  intro a b
  induction a, b using merge_dicts.induct with
  | case1 a =>
    intro _ xs r _ hfindb _
    simp [objFind] at hfindb
  | case2 a key b_value rest hfind ih =>
    intro hnd xs r hfinda hfindb hmerge
    by_cases hk : key = k
    · subst hk
      rw [hfinda] at hfind
      cases hfind
    · rw [merge_dicts.eq_def] at hmerge
      simp only [hfind] at hmerge
      simp only [objFind, hk, if_false] at hfindb
      exact ih (by simpa using hnd.of_cons) xs r
        ((objFind_objSet_ne a key k b_value (Ne.symm hk)).trans hfinda) hfindb hmerge
  | case3 a key rest a_entries b_entries res e hres hfind =>
    have hres' : (merge_dicts a_entries b_entries).2 = some e := hres
    intro _ xs r _ _ hmerge
    rw [merge_dicts.eq_def] at hmerge
    simp only [hfind, hres'] at hmerge
    exact absurd (congrArg Prod.snd hmerge) (by simp)
  | case4 a key rest a_entries b_entries res a' hres hfind ih1 ih2 =>
    have hres' : (merge_dicts a_entries b_entries).2 = none := hres
    intro hnd xs r hfinda hfindb hmerge
    by_cases hk : key = k
    · subst hk
      rw [hfinda] at hfind
      cases hfind
    · rw [merge_dicts.eq_def] at hmerge
      simp only [hfind, hres'] at hmerge
      simp only [objFind, hk, if_false] at hfindb
      exact ih2 (by simpa using hnd.of_cons) xs r
        ((objFind_objSet_ne a key k _ (Ne.symm hk)).trans hfinda) hfindb hmerge
  | case5 a key b_value rest a_entries hb hfind =>
    intro _ xs r _ _ hmerge
    rw [merge_dicts.eq_def] at hmerge
    simp only [hfind] at hmerge
    exact absurd (congrArg Prod.snd hmerge) (by simp)
  | case6 a key rest a_elems b_elems hfind ih =>
    intro hnd xs r hfinda hfindb hmerge
    rw [merge_dicts.eq_def] at hmerge
    simp only [hfind] at hmerge
    by_cases hk : key = k
    · subst hk
      rw [hfinda] at hfind
      injection hfind with hfind
      cases hfind
      simp only [objFind, if_pos rfl] at hfindb
      injection hfindb with hfindb
      injection hfindb with hfindb
      subst hfindb
      have hkeys : ∀ p ∈ rest, p.1 ≠ key := by
        simp only [List.map_cons, List.nodup_cons] at hnd
        intro p hp hpk
        exact hnd.1 (hpk ▸ List.mem_map_of_mem Prod.fst hp)
      have hpres := merge_dicts_find_of_not_mem key
        (objSet a key (.arr (a_elems ++ b_elems))) rest hkeys
      have hr : (merge_dicts (objSet a key (.arr (a_elems ++ b_elems))) rest).1 = r := by
        rw [hmerge]
      rw [← hr, hpres, objFind_objSet_self]
    · simp only [objFind, hk, if_false] at hfindb
      exact ih (by simpa using hnd.of_cons) xs r
        ((objFind_objSet_ne a key k _ (Ne.symm hk)).trans hfinda) hfindb hmerge
  | case7 a key b_value rest a_elems hb hfind =>
    intro _ xs r _ _ hmerge
    rw [merge_dicts.eq_def] at hmerge
    simp only [hfind] at hmerge
    exact absurd (congrArg Prod.snd hmerge) (by simp)
  | case8 a key b_value rest a_value hfind hobj harr ih =>
    intro hnd xs r hfinda hfindb hmerge
    by_cases hk : key = k
    · subst hk
      rw [hfinda] at hfind
      injection hfind with hfind
      exact (harr xs hfind.symm).elim
    · rw [merge_dicts.eq_def] at hmerge
      simp only [hfind] at hmerge
      simp only [objFind, hk, if_false] at hfindb
      cases a_value with
      | obj es => exact absurd rfl (hobj es)
      | arr es => exact absurd rfl (harr es)
      | null =>
        exact ih (by simpa using hnd.of_cons) xs r
          ((objFind_objSet_ne a key k _ (Ne.symm hk)).trans hfinda) hfindb hmerge
      | bool b =>
        exact ih (by simpa using hnd.of_cons) xs r
          ((objFind_objSet_ne a key k _ (Ne.symm hk)).trans hfinda) hfindb hmerge
      | num n =>
        exact ih (by simpa using hnd.of_cons) xs r
          ((objFind_objSet_ne a key k _ (Ne.symm hk)).trans hfinda) hfindb hmerge
      | str s =>
        exact ih (by simpa using hnd.of_cons) xs r
          ((objFind_objSet_ne a key k _ (Ne.symm hk)).trans hfinda) hfindb hmerge

/-- C5: When merge_dicts reaches a key whose value in the base is a dict
(or a list) but whose overlay value is not of the same container kind, it
stops with the ValueError naming that key, and the base argument keeps the
mutations already applied for the overlay entries processed before the
failing key: the returned state is exactly the state the prefix produced,
not the original base. -/
theorem C5_merge_mismatch_nonatomic
    (a pre post : JsonObj) (k : String) (v : JsonValue) (a2 : JsonObj)
    (hpre : merge_dicts a pre = (a2, none)) :
    (∀ a_entries, objFind a2 k = some (.obj a_entries) →
        (∀ b_entries, v ≠ JsonValue.obj b_entries) →
        merge_dicts a (pre ++ (k, v) :: post) = (a2, some (.dictMismatch k)))
    ∧ (∀ a_elems, objFind a2 k = some (.arr a_elems) →
        (∀ b_elems, v ≠ JsonValue.arr b_elems) →
        merge_dicts a (pre ++ (k, v) :: post) = (a2, some (.listMismatch k))) := by
  constructor
  · intro a_entries hfind hv
    rw [merge_dicts_append_ok ((k, v) :: post) a pre a2 hpre]
    rw [merge_dicts.eq_def]
    simp only [hfind]
  · intro a_elems hfind hv
    rw [merge_dicts_append_ok ((k, v) :: post) a pre a2 hpre]
    rw [merge_dicts.eq_def]
    simp only [hfind]

/-- Witness for C5 at a concrete input: base x maps to 1 and a maps to an
empty dict, overlay x maps to 2 and a maps to an empty list.  The merge
fails naming key a, and the returned base state keeps the overwrite of the
sibling key x (2, not the original 1): the failure is not atomic. -/
theorem C5_merge_mismatch_nonatomic_witness :
    merge_dicts [("x", .num 1), ("a", .obj [])] ([("x", .num 2)] ++ ("a", .arr []) :: [])
      = ([("x", .num 2), ("a", .obj [])], some (.dictMismatch "a")) :=
  (C5_merge_mismatch_nonatomic [("x", .num 1), ("a", .obj [])] [("x", .num 2)] []
      "a" (.arr []) [("x", .num 2), ("a", .obj [])]
      (by simp [merge_dicts, objFind, objSet])).1
    [] (by simp [objFind]) (fun es h => by cases h)

/-- C6: for a key present in both base and overlay with sequence values on
both sides, a successful merge stores at that key the base's sequence with
the overlay's elements appended; consequently merge is not commutative on
sequences, as the two concrete runs show. -/
theorem C6_merge_list_concat :
    (∀ (a b : JsonObj) (k : String) (xs ys : List JsonValue) (r : JsonObj),
        (b.map Prod.fst).Nodup →
        objFind a k = some (.arr xs) → objFind b k = some (.arr ys) →
        merge_dicts a b = (r, none) → objFind r k = some (.arr (xs ++ ys)))
    ∧ merge_dicts [("a", .arr [.num 1])] [("a", .arr [.num 2])]
        = ([("a", .arr [.num 1, .num 2])], none)
    ∧ merge_dicts [("a", .arr [.num 2])] [("a", .arr [.num 1])]
        = ([("a", .arr [.num 2, .num 1])], none) := by
  refine ⟨fun a b k xs ys r hnd hfa hfb hm => merge_dicts_arr_concat k ys a b hnd xs r hfa hfb hm, ?_, ?_⟩
  · simp [merge_dicts, objFind, objSet]
  · simp [merge_dicts, objFind, objSet]

/-- Witness for C6's universally quantified part at a concrete input. -/
theorem C6_merge_list_concat_witness :
    objFind [("a", .arr [.num 1, .num 2])] "a" = some (.arr ([.num 1] ++ [.num 2])) :=
  C6_merge_list_concat.1 [("a", .arr [.num 1])] [("a", .arr [.num 2])] "a"
    [.num 1] [.num 2] [("a", .arr [.num 1, .num 2])]
    (by simp) (by simp [objFind]) (by simp [objFind])
    (by simp [merge_dicts, objFind, objSet])

/-- One InstallTask entry of RtConfig.xml as parsed by xmltodict: all
fields are the literal strings of the document.  Selection state is the
string field isSelected, "true" or "false" in well-formed documents. -/
structure InstallTask where
  Id : String := ""
  optionGroupId : String := ""
  jobType : String := ""
  sourcePath : String := ""
  targetPath : String := ""
  excludePaths : String := ""
  uiName : String := ""
  uiDescription : String := ""
  difficultyModifier : String := ""
  canSelect : String := ""
  isSelected : String := ""
  saveBreaking : String := ""
deriving DecidableEq

/-- One InstallOption entry of RtConfig.xml: an option group.  The
requiredOption field is absent (none) for most groups; Python tests it for
truthiness, so an empty string behaves like an absent one. -/
structure InstallOption where
  optionId : String := ""
  optionUiName : String := ""
  optionDescription : Option String := none
  optionType : String := ""
  requiredOption : Option String := none
deriving DecidableEq

/-- The parsed RogueTechConfig document: the Options/InstallOption list and
the Tasks/InstallTask list, in document order. -/
structure RTConfig where
  options : List InstallOption
  tasks : List InstallTask
deriving DecidableEq

/-- The groups mapping built by Installer._extract_configuration_tree:
a dict from optionId to the InstallOption, later entries overwriting
earlier ones, queried at one group id (groups[group_id], none models the
KeyError case). -/
def findGroup (config : RTConfig) (group_id : String) : Option InstallOption :=
  config.options.reverse.find? (fun o => decide (o.optionId = group_id))

/-- The per-group task index built by _index_tasks_by_option_group,
queried at one group id: the member tasks in document order (a defaultdict,
so an unknown group id yields the empty list). -/
def tasksOfGroup (config : RTConfig) (group_id : String) : List InstallTask :=
  config.tasks.filter (fun t => decide (t.optionGroupId = group_id))

/-- Python str.lower() as used on isSelected values: character-wise ASCII
case mapping (the same mapping as Char.toLower), written by structural
recursion over the character list so concrete calls evaluate. -/
def pyLower (s : String) : String := ⟨s.data.map Char.toLower⟩

/-- Installer.is_option_enabled: scan the task list for the first task
whose Id matches and report whether its isSelected, lowercased, is "true";
report false when no task matches. -/
def is_option_enabled (config : RTConfig) (option_id : String) : Bool :=
  match config.tasks.find? (fun t => decide (t.Id = option_id)) with
  | some task => decide (pyLower task.isSelected = "true")
  | none => false

/-- The ValueError / KeyError outcomes of Installer.set_option. -/
inductive SetOptionError where
  | missingGroup (group_id : String) : SetOptionError
  | disableExclusiveOption : SetOptionError
  | missingTask (task_id : String) : SetOptionError
  | unsupportedOptionType (option_type : String) : SetOptionError
deriving DecidableEq

/-- The per-task mutation performed by the ExclusiveOption loop of
Installer.set_option on each task of the named group: isSelected becomes
"true" exactly for the task whose Id is task_id, "false" for every other
member; tasks of other groups are untouched. -/
def exclusiveUpdate (group_id task_id : String) (t : InstallTask) : InstallTask :=
  if t.optionGroupId = group_id then
    { t with isSelected := if t.Id = task_id then "true" else "false" }
  else t

/-- The MultiSelectOption assignment task_index[task_id]["isSelected"] = v:
_index_tasks_by_id keeps the last task for a duplicated Id, so the last
task in the list whose Id matches is updated in place. -/
def updateFirstTask : List InstallTask → String → String → List InstallTask
  | [], _, _ => []
  | t :: rest, task_id, v =>
    if t.Id = task_id then { t with isSelected := v } :: rest
    else t :: updateFirstTask rest task_id v

/-- Installer.set_option(config, group_id, task_id, new_value): the
configuration after the call paired with the raised error, if any.  Every
raise in the Python code happens before any task is mutated, so error
outcomes return the configuration unchanged. -/
def Installer.set_option (config : RTConfig) (group_id task_id : String) (new_value : Bool) :
    RTConfig × Option SetOptionError :=
  match findGroup config group_id with
  | none => (config, some (.missingGroup group_id))
  | some group =>
    if group.optionType = "ExclusiveOption" then
      if new_value = false then (config, some .disableExclusiveOption)
      else
        ({ config with tasks := config.tasks.map (exclusiveUpdate group_id task_id) }, none)
    else if group.optionType = "MultiSelectOption" then
      if task_id ∈ config.tasks.map InstallTask.Id then
        ({ config with tasks :=
            (updateFirstTask config.tasks.reverse task_id
              (if new_value then "true" else "false")).reverse }, none)
      else (config, some (.missingTask task_id))
    else (config, some (.unsupportedOptionType group.optionType))

/-- Truthiness of group.get("requiredOption") in Python: present and not
the empty string. -/
def optTruthy : Option String → Bool
  | none => false
  | some s => decide (s ≠ "")

/-- App.toggle_task, restricted to its selection-state effect: the group
and the task under the cursor are passed explicitly (cursor resolution is
presentation glue).  If the group names a truthy requiredOption whose task
is not enabled, the method returns without touching anything; otherwise it
computes the desired value from the option kind and delegates to
Installer.set_option.  The result is the configuration after the call
paired with the raised error, if any. -/
def toggle_task (config : RTConfig) (group : InstallOption) (task : InstallTask) :
    RTConfig × Option SetOptionError :=
  if optTruthy group.requiredOption = true ∧
      is_option_enabled config (group.requiredOption.getD "") = false then
    (config, none)
  else
    let current_val := decide (pyLower task.isSelected = "true")
    if group.optionType = "ExclusiveOption" then
      if current_val then (config, none)
      else Installer.set_option config group.optionId task.Id true
    else if group.optionType = "MultiSelectOption" then
      Installer.set_option config group.optionId task.Id (!current_val)
    else (config, some (.unsupportedOptionType group.optionType))

/-- C3: on a group that resolves to an ExclusiveOption, set_option with
desired value false raises the ValueError for disabling an exclusive
option (the spec's InvalidTransition) before touching any task, so the
configuration component of the result is exactly the input configuration:
no partial effect. -/
theorem C3_exclusive_false_rejected
    (config : RTConfig) (group_id task_id : String) (group : InstallOption)
    (hg : findGroup config group_id = some group)
    (ht : group.optionType = "ExclusiveOption") :
    Installer.set_option config group_id task_id false
      = (config, some .disableExclusiveOption) := by
  unfold Installer.set_option
  rw [hg]
  simp [ht]

/-- The exclusive group used to witness C3. -/
def C3group : InstallOption :=
  { optionId := "g", optionUiName := "G", optionType := "ExclusiveOption" }

/-- A one-group, two-task configuration used to witness C3. -/
def C3cfg : RTConfig :=
  { options := [C3group],
    tasks := [{ Id := "a", optionGroupId := "g", canSelect := "true", isSelected := "true" },
              { Id := "b", optionGroupId := "g", canSelect := "true", isSelected := "false" }] }

/-- Witness for C3 at a concrete configuration. -/
theorem C3_exclusive_false_rejected_witness :
    Installer.set_option C3cfg "g" "b" false = (C3cfg, some .disableExclusiveOption) :=
  C3_exclusive_false_rejected C3cfg "g" "b" C3group (by decide) (by decide)

/-- The multi-select group with a requiredOption used for C1. -/
def C1group : InstallOption :=
  { optionId := "g1", optionUiName := "G1", optionType := "MultiSelectOption",
    requiredOption := some "reqTask" }

/-- The member task of C1group used for C1. -/
def C1task : InstallTask :=
  { Id := "t1", optionGroupId := "g1", jobType := "NoOp",
    canSelect := "true", isSelected := "false" }

/-- A configuration in which C1group's required option reqTask is not
enabled. -/
def C1cfg : RTConfig :=
  { options := [{ optionId := "g0", optionUiName := "G0", optionType := "MultiSelectOption" },
                C1group],
    tasks := [{ Id := "reqTask", optionGroupId := "g0", jobType := "NoOp",
                canSelect := "true", isSelected := "false" },
              C1task] }

/-- C1 counterexample: in C1cfg the group g1 declares the truthy required
option reqTask, and reqTask is not enabled, yet Installer.set_option on g1
raises no error and changes t1's selection state — the mutation is not a
no-op at the configuration-tree level. -/
theorem C1_counterexample :
    (optTruthy C1group.requiredOption = true ∧
      is_option_enabled C1cfg "reqTask" = false) ∧
    (Installer.set_option C1cfg "g1" "t1" true).2 = none ∧
    (Installer.set_option C1cfg "g1" "t1" true).1.tasks.map InstallTask.isSelected
      = ["false", "true"] ∧
    (Installer.set_option C1cfg "g1" "t1" true).1 ≠ C1cfg := by
  decide

/-- C1 (amended): the requiredOption gating lives only in the presentation
layer.  When the group under the cursor declares a truthy requiredOption
whose task is not currently enabled, App.toggle_task returns without
calling set_option: every task's selection state is left unchanged and no
error is raised. -/
theorem C1_gating_only_in_toggle_task
    (config : RTConfig) (group : InstallOption) (task : InstallTask)
    (hreq : optTruthy group.requiredOption = true)
    (hdis : is_option_enabled config (group.requiredOption.getD "") = false) :
    toggle_task config group task = (config, none) := by
  unfold toggle_task
  rw [if_pos ⟨hreq, hdis⟩]

/-- Witness for the amended C1 at the concrete configuration of the
counterexample: the same toggle that set_option performs is ignored by
toggle_task. -/
theorem C1_gating_only_in_toggle_task_witness :
    toggle_task C1cfg C1group C1task = (C1cfg, none) :=
  C1_gating_only_in_toggle_task C1cfg C1group C1task (by decide) (by decide)

/-- C9: in a configuration with unique task Ids and canonical "true" or
"false" isSelected values, is_option_enabled answers true exactly when a
task with the queried id exists and is selected, and answers false — it
raises nothing — when no task carries the queried id. -/
theorem C9_is_option_enabled_semantics
    (config : RTConfig) (option_id : String)
    (hids : (config.tasks.map InstallTask.Id).Nodup)
    (hvals : ∀ t ∈ config.tasks, t.isSelected = "true" ∨ t.isSelected = "false") :
    (is_option_enabled config option_id = true ↔
      ∃ t ∈ config.tasks, t.Id = option_id ∧ t.isSelected = "true")
    ∧ ((∀ t ∈ config.tasks, t.Id ≠ option_id) →
        is_option_enabled config option_id = false) := by
  constructor
  · unfold is_option_enabled
    cases hfind : config.tasks.find? (fun t => decide (t.Id = option_id)) with
    | none =>
      have hnone := List.find?_eq_none.mp hfind
      simp only [decide_eq_true_eq] at hnone
      simp only [Bool.false_eq_true, false_iff]
      rintro ⟨t, htmem, hid, _⟩
      exact hnone t htmem hid
    | some t =>
      have htmem := List.mem_of_find?_eq_some hfind
      have hid : t.Id = option_id := by
        have := List.find?_some hfind
        simpa using this
      simp only [decide_eq_true_eq]
      constructor
      · intro hlow
        refine ⟨t, htmem, hid, ?_⟩
        rcases hvals t htmem with h | h
        · exact h
        · rw [h] at hlow
          exact absurd hlow (by decide)
      · rintro ⟨u, humem, huid, husel⟩
        have : u = t := List.inj_on_of_nodup_map hids humem htmem (huid.trans hid.symm)
        subst this
        rw [husel]
        decide
  · intro hall
    unfold is_option_enabled
    cases hfind : config.tasks.find? (fun t => decide (t.Id = option_id)) with
    | none => rfl
    | some t =>
      have htmem := List.mem_of_find?_eq_some hfind
      have hid : t.Id = option_id := by
        have := List.find?_some hfind
        simpa using this
      exact absurd hid (hall t htmem)

/-- A configuration used to witness C9: unique ids, canonical selection
strings, one selected task. -/
def C9cfg : RTConfig :=
  { options := [{ optionId := "g", optionUiName := "G", optionType := "MultiSelectOption" }],
    tasks := [{ Id := "a", optionGroupId := "g", canSelect := "true", isSelected := "true" },
              { Id := "b", optionGroupId := "g", canSelect := "true", isSelected := "false" }] }

/-- Witness for C9 at a concrete configuration and id. -/
theorem C9_is_option_enabled_semantics_witness :
    (is_option_enabled C9cfg "a" = true ↔
      ∃ t ∈ C9cfg.tasks, t.Id = "a" ∧ t.isSelected = "true")
    ∧ ((∀ t ∈ C9cfg.tasks, t.Id ≠ "a") → is_option_enabled C9cfg "a" = false) :=
  C9_is_option_enabled_semantics C9cfg "a" (by decide) (by decide)

/-- C10: when the group resolves to an ExclusiveOption and the named task
id matches no member task of the group, set_option(.., true) succeeds and
writes "false" into every member task of the group, leaving the group with
zero selected members — the exactly-one property survives only when the
task id names a member. -/
theorem C10_exclusive_nonmember_clears_group
    (config : RTConfig) (group_id task_id : String) (group : InstallOption)
    (hg : findGroup config group_id = some group)
    (ht : group.optionType = "ExclusiveOption")
    (hnm : ∀ t ∈ tasksOfGroup config group_id, t.Id ≠ task_id) :
    (Installer.set_option config group_id task_id true).2 = none ∧
    (∀ t ∈ tasksOfGroup (Installer.set_option config group_id task_id true).1 group_id,
        t.isSelected = "false") ∧
    (tasksOfGroup (Installer.set_option config group_id task_id true).1 group_id).countP
        (fun t => decide (t.isSelected = "true")) = 0 := by
  have hset : Installer.set_option config group_id task_id true
      = ({ config with tasks := config.tasks.map (exclusiveUpdate group_id task_id) }, none) := by
    unfold Installer.set_option
    rw [hg]
    simp [ht]
  rw [hset]
  have hfact : ∀ t ∈ tasksOfGroup
      ({ config with tasks := config.tasks.map (exclusiveUpdate group_id task_id) } : RTConfig)
      group_id, t.isSelected = "false" := by
    intro t htmem
    unfold tasksOfGroup at htmem
    simp only [List.filter_map, List.mem_map] at htmem
    obtain ⟨u, humem, hut⟩ := htmem
    rw [List.mem_filter] at humem
    obtain ⟨humem, hpu⟩ := humem
    simp only [Function.comp_apply, decide_eq_true_eq] at hpu
    have hugrp : u.optionGroupId = group_id := by
      unfold exclusiveUpdate at hpu
      by_cases hu : u.optionGroupId = group_id
      · exact hu
      · rw [if_neg hu] at hpu
        exact hpu
    have huid : u.Id ≠ task_id :=
      hnm u (List.mem_filter.mpr ⟨humem, by simp [hugrp]⟩)
    rw [← hut]
    unfold exclusiveUpdate
    rw [if_pos hugrp, if_neg huid]
  refine ⟨rfl, hfact, ?_⟩
  rw [List.countP_eq_zero]
  intro t htmem
  have := hfact t htmem
  simp [this]

/-- The exclusive group used to witness C10. -/
def C10group : InstallOption :=
  { optionId := "gx", optionUiName := "GX", optionType := "ExclusiveOption" }

/-- A configuration used to witness C10: one exclusive group with two
member tasks, one selected. -/
def C10cfg : RTConfig :=
  { options := [C10group],
    tasks := [{ Id := "a", optionGroupId := "gx", canSelect := "true", isSelected := "true" },
              { Id := "b", optionGroupId := "gx", canSelect := "true", isSelected := "false" }] }

/-- Witness for C10: selecting the unknown task id zz on the exclusive
group gx deselects every member. -/
theorem C10_exclusive_nonmember_clears_group_witness :
    (Installer.set_option C10cfg "gx" "zz" true).2 = none ∧
    (∀ t ∈ tasksOfGroup (Installer.set_option C10cfg "gx" "zz" true).1 "gx",
        t.isSelected = "false") ∧
    (tasksOfGroup (Installer.set_option C10cfg "gx" "zz" true).1 "gx").countP
        (fun t => decide (t.isSelected = "true")) = 0 :=
  C10_exclusive_nonmember_clears_group C10cfg "gx" "zz" C10group
    (by decide) (by decide) (by decide)

/-- The number of selected member tasks of a group: members are the tasks
whose optionGroupId names the group, selected means the literal string
"true". -/
def selectedCount (config : RTConfig) (group_id : String) : Nat :=
  (tasksOfGroup config group_id).countP (fun t => decide (t.isSelected = "true"))

/-- The exclusive-group invariant: every declared ExclusiveOption group
has exactly one selected member task. -/
def exclusiveInvariant (config : RTConfig) : Prop :=
  ∀ o ∈ config.options, o.optionType = "ExclusiveOption" →
    selectedCount config o.optionId = 1

/-- One set_option call: a group id, a task id and the desired value. -/
structure SelCall where
  group_id : String
  task_id : String
  value : Bool
deriving DecidableEq

/-- A call is legal when it names a declared group and one of that group's
member tasks. -/
def legalCall (config : RTConfig) (c : SelCall) : Prop :=
  c.group_id ∈ config.options.map InstallOption.optionId ∧
  (c.task_id, c.group_id) ∈ config.tasks.map (fun t => (t.Id, t.optionGroupId))

/-- Well-formedness from the data model: task ids and group ids are
unique. -/
def wellFormedConfig (config : RTConfig) : Prop :=
  (config.tasks.map InstallTask.Id).Nodup ∧
  (config.options.map InstallOption.optionId).Nodup

/-- The configuration after one set_option call; a raised error leaves the
configuration unchanged (every raise happens before any mutation). -/
def applyCall (config : RTConfig) (c : SelCall) : RTConfig :=
  (Installer.set_option config c.group_id c.task_id c.value).1

/-- The configuration after a sequence of set_option calls. -/
def applyCalls (config : RTConfig) (cs : List SelCall) : RTConfig :=
  cs.foldl applyCall config

theorem exclusiveUpdate_Id (group_id task_id : String) (t : InstallTask) :
    (exclusiveUpdate group_id task_id t).Id = t.Id := by
  unfold exclusiveUpdate
  by_cases h : t.optionGroupId = group_id
  · rw [if_pos h]
  · rw [if_neg h]

theorem exclusiveUpdate_group (group_id task_id : String) (t : InstallTask) :
    (exclusiveUpdate group_id task_id t).optionGroupId = t.optionGroupId := by
  unfold exclusiveUpdate
  by_cases h : t.optionGroupId = group_id
  · rw [if_pos h]
  · rw [if_neg h]

theorem updateFirstTask_map_struct (l : List InstallTask) (task_id v : String) :
    (updateFirstTask l task_id v).map (fun t => (t.Id, t.optionGroupId))
      = l.map (fun t => (t.Id, t.optionGroupId)) := by
  induction l with
  | nil => rfl
  | cons t rest ih =>
    unfold updateFirstTask
    by_cases h : t.Id = task_id
    · rw [if_pos h]
      simp
    · rw [if_neg h]
      simp [ih]

/-- With unique task ids, updating the last matching task is the same as
updating every matching task (there is at most one). -/
theorem updateFirstTask_eq_map_of_nodup (l : List InstallTask) (task_id v : String)
    (h : (l.map InstallTask.Id).Nodup) :
    updateFirstTask l task_id v
      = l.map (fun t => if t.Id = task_id then { t with isSelected := v } else t) := by
  induction l with
  | nil => rfl
  | cons t rest ih =>
    simp only [List.map_cons, List.nodup_cons] at h
    unfold updateFirstTask
    by_cases htid : t.Id = task_id
    · rw [if_pos htid]
      simp only [List.map_cons, if_pos htid]
      congr 1
      have hrest : ∀ u ∈ rest,
          (if u.Id = task_id then { u with isSelected := v } else u) = u := by
        intro u hu
        rw [if_neg]
        intro hc
        exact h.1 (by rw [← htid] at hc; exact hc ▸ List.mem_map_of_mem InstallTask.Id hu)
      rw [List.map_congr_left hrest, List.map_id']
    · rw [if_neg htid]
      simp only [List.map_cons, if_neg htid]
      rw [ih h.2]

/-- With unique task ids, the multi-select update of set_option (update of
the last task whose Id matches, through the reversed list) is a pointwise
map over the task list. -/
theorem multiselect_tasks_eq_map (l : List InstallTask) (task_id v : String)
    (h : (l.map InstallTask.Id).Nodup) :
    (updateFirstTask l.reverse task_id v).reverse
      = l.map (fun t => if t.Id = task_id then { t with isSelected := v } else t) := by
  have hrev : (l.reverse.map InstallTask.Id).Nodup := by
    rw [List.map_reverse, List.nodup_reverse]
    exact h
  rw [updateFirstTask_eq_map_of_nodup l.reverse task_id v hrev]
  rw [← List.map_reverse, List.reverse_reverse]

theorem countP_Id_le_one (l : List InstallTask) (task_id : String)
    (h : (l.map InstallTask.Id).Nodup) :
    l.countP (fun t => decide (t.Id = task_id)) ≤ 1 := by
  induction l with
  | nil => simp
  | cons t rest ih =>
    simp only [List.map_cons, List.nodup_cons] at h
    rw [List.countP_cons]
    by_cases htid : t.Id = task_id
    · have hzero : rest.countP (fun t => decide (t.Id = task_id)) = 0 := by
        rw [List.countP_eq_zero]
        intro u hu
        simp only [decide_eq_true_eq]
        intro hc
        exact h.1 (by rw [← htid] at hc; exact hc ▸ List.mem_map_of_mem InstallTask.Id hu)
      simp [hzero, htid]
    · simp [htid]
      exact ih h.2

theorem set_option_eq_of_missing_group (config : RTConfig) (gid tid : String) (v : Bool)
    (hg : findGroup config gid = none) :
    Installer.set_option config gid tid v = (config, some (.missingGroup gid)) := by
  unfold Installer.set_option
  rw [hg]

theorem set_option_eq_exclusive_false (config : RTConfig) (gid tid : String)
    (group : InstallOption) (hg : findGroup config gid = some group)
    (hex : group.optionType = "ExclusiveOption") :
    Installer.set_option config gid tid false
      = (config, some .disableExclusiveOption) := by
  unfold Installer.set_option
  rw [hg]
  simp [hex]

theorem set_option_eq_exclusive_true (config : RTConfig) (gid tid : String)
    (group : InstallOption) (hg : findGroup config gid = some group)
    (hex : group.optionType = "ExclusiveOption") :
    Installer.set_option config gid tid true
      = ({ config with tasks := config.tasks.map (exclusiveUpdate gid tid) }, none) := by
  unfold Installer.set_option
  rw [hg]
  simp [hex]

theorem set_option_eq_multiselect (config : RTConfig) (gid tid : String) (v : Bool)
    (group : InstallOption) (hg : findGroup config gid = some group)
    (hms : group.optionType = "MultiSelectOption")
    (hmem : tid ∈ config.tasks.map InstallTask.Id) :
    Installer.set_option config gid tid v
      = ({ config with tasks := (updateFirstTask config.tasks.reverse tid
            (if v then "true" else "false")).reverse }, none) := by
  unfold Installer.set_option
  rw [hg]
  simp [hms, hmem]

theorem set_option_eq_multiselect_missing (config : RTConfig) (gid tid : String) (v : Bool)
    (group : InstallOption) (hg : findGroup config gid = some group)
    (hms : group.optionType = "MultiSelectOption")
    (hmem : tid ∉ config.tasks.map InstallTask.Id) :
    Installer.set_option config gid tid v = (config, some (.missingTask tid)) := by
  unfold Installer.set_option
  rw [hg]
  simp [hms, hmem]

theorem set_option_eq_unsupported (config : RTConfig) (gid tid : String) (v : Bool)
    (group : InstallOption) (hg : findGroup config gid = some group)
    (hex : group.optionType ≠ "ExclusiveOption")
    (hms : group.optionType ≠ "MultiSelectOption") :
    Installer.set_option config gid tid v
      = (config, some (.unsupportedOptionType group.optionType)) := by
  unfold Installer.set_option
  rw [hg]
  simp [hex, hms]

theorem applyCall_structure (config : RTConfig) (c : SelCall) :
    (applyCall config c).options = config.options ∧
    (applyCall config c).tasks.map (fun t => (t.Id, t.optionGroupId))
      = config.tasks.map (fun t => (t.Id, t.optionGroupId)) := by
  unfold applyCall
  cases hg : findGroup config c.group_id with
  | none => rw [set_option_eq_of_missing_group config c.group_id c.task_id c.value hg]; exact ⟨rfl, rfl⟩
  | some group =>
    by_cases hex : group.optionType = "ExclusiveOption"
    · cases hv : c.value with
      | false =>
        rw [set_option_eq_exclusive_false config c.group_id c.task_id group hg hex]
        exact ⟨rfl, rfl⟩
      | true =>
        rw [set_option_eq_exclusive_true config c.group_id c.task_id group hg hex]
        refine ⟨rfl, ?_⟩
        rw [List.map_map]
        exact List.map_congr_left (fun t _ => by
          simp [Function.comp_apply, exclusiveUpdate_Id, exclusiveUpdate_group])
    · by_cases hms : group.optionType = "MultiSelectOption"
      · by_cases hmem : c.task_id ∈ config.tasks.map InstallTask.Id
        · rw [set_option_eq_multiselect config c.group_id c.task_id c.value group hg hms hmem]
          refine ⟨rfl, ?_⟩
          rw [List.map_reverse, updateFirstTask_map_struct, List.map_reverse,
            List.reverse_reverse]
        · rw [set_option_eq_multiselect_missing config c.group_id c.task_id c.value group hg hms hmem]
          exact ⟨rfl, rfl⟩
      · rw [set_option_eq_unsupported config c.group_id c.task_id c.value group hg hex hms]
        exact ⟨rfl, rfl⟩

theorem selectedCount_eq_countP (config : RTConfig) (g : String) :
    selectedCount config g = config.tasks.countP
      (fun t => decide (t.isSelected = "true") && decide (t.optionGroupId = g)) := by
  unfold selectedCount tasksOfGroup
  rw [List.countP_filter]

theorem selectedCount_map (opts : List InstallOption) (tasks : List InstallTask)
    (f : InstallTask → InstallTask) (g : String) :
    selectedCount { options := opts, tasks := tasks.map f } g
      = tasks.countP (fun t => decide ((f t).isSelected = "true")
          && decide ((f t).optionGroupId = g)) := by
  rw [selectedCount_eq_countP]
  show (tasks.map f).countP _ = _
  rw [List.countP_map]
  rfl

theorem applyCall_preserves_exclusiveInvariant
    (config : RTConfig) (c : SelCall)
    (hwf : wellFormedConfig config)
    (hleg : legalCall config c)
    (hinv : exclusiveInvariant config) :
    exclusiveInvariant (applyCall config c) := by
  obtain ⟨hids, hgids⟩ := hwf
  obtain ⟨hgrpmem, hpair⟩ := hleg
  rw [List.mem_map] at hpair
  obtain ⟨m, hmmem, hmeq⟩ := hpair
  have hmid : m.Id = c.task_id := congrArg Prod.fst hmeq
  have hmgrp : m.optionGroupId = c.group_id := congrArg Prod.snd hmeq
  unfold applyCall
  cases hg : findGroup config c.group_id with
  | none =>
    rw [set_option_eq_of_missing_group config c.group_id c.task_id c.value hg]
    exact hinv
  | some group =>
    have hgroupmem : group ∈ config.options ∧ group.optionId = c.group_id := by
      have h1 := List.mem_of_find?_eq_some hg
      have h2 := List.find?_some hg
      simp only [decide_eq_true_eq] at h2
      exact ⟨List.mem_reverse.mp h1, h2⟩
    by_cases hex : group.optionType = "ExclusiveOption"
    · cases hv : c.value with
      | false =>
        rw [set_option_eq_exclusive_false config c.group_id c.task_id group hg hex]
        exact hinv
      | true =>
        rw [set_option_eq_exclusive_true config c.group_id c.task_id group hg hex]
        intro o ho hot
        show selectedCount
          { options := config.options,
            tasks := config.tasks.map (exclusiveUpdate c.group_id c.task_id) } o.optionId = 1
        rw [selectedCount_map]
        by_cases hoid : o.optionId = c.group_id
        · rw [hoid]
          have hcong : ∀ t ∈ config.tasks,
              (decide ((exclusiveUpdate c.group_id c.task_id t).isSelected = "true")
                && decide ((exclusiveUpdate c.group_id c.task_id t).optionGroupId = c.group_id))
                = true
              ↔ (decide (t.Id = c.task_id) && decide (t.optionGroupId = c.group_id)) = true := by
            intro t _
            rw [exclusiveUpdate_group]
            unfold exclusiveUpdate
            by_cases hgt : t.optionGroupId = c.group_id
            · rw [if_pos hgt]
              by_cases hid : t.Id = c.task_id
              · simp [hid, hgt]
              · simp [hid, hgt]
            · rw [if_neg hgt]
              simp [hgt]
          rw [List.countP_congr hcong]
          have hle : config.tasks.countP
              (fun t => decide (t.Id = c.task_id) && decide (t.optionGroupId = c.group_id)) ≤ 1 := by
            refine le_trans (List.countP_mono_left ?_) (countP_Id_le_one config.tasks c.task_id hids)
            intro t _ hp
            simp only [Bool.and_eq_true] at hp
            exact hp.1
          have hpos : 0 < config.tasks.countP
              (fun t => decide (t.Id = c.task_id) && decide (t.optionGroupId = c.group_id)) := by
            rw [List.countP_pos_iff]
            exact ⟨m, hmmem, by simp [hmid, hmgrp]⟩
          omega
        · have hcong : ∀ t ∈ config.tasks,
              (decide ((exclusiveUpdate c.group_id c.task_id t).isSelected = "true")
                && decide ((exclusiveUpdate c.group_id c.task_id t).optionGroupId = o.optionId))
                = true
              ↔ (decide (t.isSelected = "true") && decide (t.optionGroupId = o.optionId)) = true := by
            intro t _
            rw [exclusiveUpdate_group]
            unfold exclusiveUpdate
            by_cases hgt : t.optionGroupId = c.group_id
            · rw [if_pos hgt]
              have : t.optionGroupId ≠ o.optionId := by
                rw [hgt]
                exact fun hc => hoid hc.symm
              simp [this]
            · rw [if_neg hgt]
          rw [List.countP_congr hcong]
          rw [← selectedCount_eq_countP]
          exact hinv o ho hot
    · by_cases hms : group.optionType = "MultiSelectOption"
      · have hmem : c.task_id ∈ config.tasks.map InstallTask.Id :=
          List.mem_map.mpr ⟨m, hmmem, hmid⟩
        rw [set_option_eq_multiselect config c.group_id c.task_id c.value group hg hms hmem]
        intro o ho hot
        have hoid : o.optionId ≠ c.group_id := by
          intro heq
          have : o = group :=
            List.inj_on_of_nodup_map hgids ho hgroupmem.1 (heq.trans hgroupmem.2.symm)
          subst this
          exact hex hot
        show selectedCount
          { options := config.options,
            tasks := (updateFirstTask config.tasks.reverse c.task_id
              (if c.value then "true" else "false")).reverse } o.optionId = 1
        rw [multiselect_tasks_eq_map config.tasks c.task_id _ hids]
        rw [selectedCount_map]
        have hcong : ∀ t ∈ config.tasks,
            (decide ((if t.Id = c.task_id
                then { t with isSelected := if c.value then "true" else "false" }
                else t).isSelected = "true")
              && decide ((if t.Id = c.task_id
                then { t with isSelected := if c.value then "true" else "false" }
                else t).optionGroupId = o.optionId)) = true
            ↔ (decide (t.isSelected = "true") && decide (t.optionGroupId = o.optionId)) = true := by
          intro t htmem
          by_cases hid : t.Id = c.task_id
          · have : t = m := List.inj_on_of_nodup_map hids htmem hmmem (hid.trans hmid.symm)
            subst this
            have hne : t.optionGroupId ≠ o.optionId := by
              rw [hmgrp]
              exact fun hc => hoid hc.symm
            rw [if_pos hid]
            simp [hne]
          · rw [if_neg hid]
        rw [List.countP_congr hcong]
        rw [← selectedCount_eq_countP]
        exact hinv o ho hot
      · rw [set_option_eq_unsupported config c.group_id c.task_id c.value group hg hex hms]
        exact hinv

/-- C2: starting from a well-formed configuration in which every exclusive
group has exactly one selected member, any sequence of legal set_option
calls — each naming a declared group and one of that group's member
tasks — leaves every exclusive group with exactly one selected member:
never zero, never more than one. -/
theorem C2_exclusive_groups_keep_one_selected
    (config : RTConfig) (calls : List SelCall)
    (hwf : wellFormedConfig config)
    (hleg : ∀ c ∈ calls, legalCall config c)
    (hinv : exclusiveInvariant config) :
    exclusiveInvariant (applyCalls config calls) := by
  induction calls generalizing config with
  | nil => exact hinv
  | cons c cs ih =>
    have hstruct := applyCall_structure config c
    have hid : (applyCall config c).tasks.map InstallTask.Id
        = config.tasks.map InstallTask.Id := by
      have h2 := congrArg (List.map Prod.fst) hstruct.2
      simpa [List.map_map, Function.comp] using h2
    show exclusiveInvariant (applyCalls (applyCall config c) cs)
    apply ih (applyCall config c)
    · constructor
      · rw [hid]
        exact hwf.1
      · rw [hstruct.1]
        exact hwf.2
    · intro c' hc'
      have := hleg c' (List.mem_cons_of_mem c hc')
      unfold legalCall at this ⊢
      rw [hstruct.1, hstruct.2]
      exact this
    · exact applyCall_preserves_exclusiveInvariant config c hwf
        (hleg c (List.mem_cons_self c cs)) hinv

/-- A configuration used to witness C2: one exclusive group of two tasks
with exactly one selected, one multi-select group of one task. -/
def C2cfg : RTConfig :=
  { options := [{ optionId := "ge", optionUiName := "GE", optionType := "ExclusiveOption" },
                { optionId := "gm", optionUiName := "GM", optionType := "MultiSelectOption" }],
    tasks := [{ Id := "a", optionGroupId := "ge", canSelect := "true", isSelected := "true" },
              { Id := "b", optionGroupId := "ge", canSelect := "true", isSelected := "false" },
              { Id := "c", optionGroupId := "gm", canSelect := "true", isSelected := "false" }] }

/-- Witness for C2: toggling b in the exclusive group and c in the
multi-select group keeps exactly one member of ge selected. -/
theorem C2_exclusive_groups_keep_one_selected_witness :
    exclusiveInvariant (applyCalls C2cfg
      [{ group_id := "ge", task_id := "b", value := true },
       { group_id := "gm", task_id := "c", value := true }]) :=
  C2_exclusive_groups_keep_one_selected C2cfg
    [{ group_id := "ge", task_id := "b", value := true },
     { group_id := "gm", task_id := "c", value := true }]
    (by unfold wellFormedConfig; decide)
    (by unfold legalCall; decide)
    (by unfold exclusiveInvariant selectedCount tasksOfGroup; decide)

/-- Python s.split(sep) for a one-character separator, by structural
recursion over the character list: never empty, adjacent separators give
empty segments, an empty string gives one empty segment. -/
def splitCharAux (sep : Char) : List Char → List (List Char)
  | [] => [[]]
  | c :: rest =>
    match splitCharAux sep rest with
    | [] => [[]]
    | g :: gs => if c = sep then [] :: g :: gs else (c :: g) :: gs

/-- Python s.split(sep) on strings. -/
def py_split (s : String) (sep : Char) : List String :=
  (splitCharAux sep s.data).map (fun cs => ⟨cs⟩)

/-- Python s.strip(): drop leading and trailing whitespace. -/
def py_strip (s : String) : String :=
  ⟨((s.data.dropWhile Char.isWhitespace).reverse.dropWhile Char.isWhitespace).reverse⟩

/-- Model of os.path.join(base, p) for POSIX paths and two arguments: an absolute
second argument replaces the base; otherwise the parts are glued with a
slash unless the base is empty or already ends with one.  Every job
handler applies it to the source-cache or mod-directory root and a path
from the task (with sourcePath-or-empty semantics: on strings, x or ""
is x itself). -/
def path_join (base p : String) : String :=
  if p.data.head? = some '/' then p
  else if base = "" ∨ base.data.getLast? = some '/' then base ++ p
  else base ++ "/" ++ p

/-- Model of os.path.basename: the part after the last slash. -/
def basename (p : String) : String := (py_split p '/').getLastD ""

/-- Installer._get_excludes: the comma-split excludePaths segments, as a
set with membership semantics (modelled by a list).  The RtConfig.xml
erroneously lists Optional instead of Optionals, so when the literal
segment Optional occurs, Optionals is added as well. -/
def get_excludes (task : InstallTask) : List String :=
  let exclude_paths := py_split task.excludePaths ','
  if "Optional" ∈ exclude_paths then exclude_paths ++ ["Optionals"] else exclude_paths

/-- The top-level loop of _filtered_copy on a source directory: given the
basenames of the directory's entries (the filesystem is an external
collaborator, so the listing is an input), the entries actually copied are
those whose basename is not in the exclude set. -/
def filtered_copy_entries (entries : List String) (excludes : List String) : List String :=
  entries.filter (fun item => decide (item ∉ excludes))

/-- One _filtered_copy invocation: source path, target path and the
exclude set it would filter top-level entries with. -/
structure CopyOp where
  source : String
  target : String
  excludes : List String
deriving DecidableEq

/-- The externally visible filesystem action of one install task. -/
inductive InstallEffect where
  | copy (op : CopyOp) : InstallEffect
  | jsonMerge (source target : String) : InstallEffect
  | bootConfigGfxJobs (job_count : Nat) : InstallEffect
deriving DecidableEq

/-- The re-raised CalledProcessError of _run_process_and_install (the
spec's ExternalToolFailure), carrying the installer binary name and the
nonzero exit status. -/
inductive InstallError where
  | externalToolFailure (installer : String) (exit_code : Nat) : InstallError
deriving DecidableEq

/-- The blacklist checked before job dispatch (as of f459d6a). -/
def TASK_BLACKLIST : List String :=
  ["modtekInstall", "perfixInstall", "CommanderPortraitLoader"]

/-- Installer._normal_install: one filtered copy from the source cache to
the mod directory. -/
def normal_install (rtcache mod_dir : String) (task : InstallTask) : List InstallEffect :=
  [.copy { source := path_join rtcache task.sourcePath,
           target := path_join mod_dir task.targetPath,
           excludes := get_excludes task }]

/-- Installer._multi_component_install: comma-split and strip both path
lists, then zip them into pairwise filtered copies, in list order. -/
def multi_component_install (rtcache mod_dir : String) (task : InstallTask) :
    List InstallEffect :=
  let exclude_paths := get_excludes task
  let source_paths := (py_split task.sourcePath ',').map py_strip
  let target_paths := (py_split task.targetPath ',').map py_strip
  (source_paths.zip target_paths).map
    (fun p => .copy { source := path_join rtcache p.1,
                      target := path_join mod_dir p.2,
                      excludes := exclude_paths })

/-- Installer._run_process_and_install: run the external installer binary
named by targetPath with the source directory as working directory; the
exit status of that external process is an input.  A nonzero status
re-raises (no copy); a zero status is followed by one unfiltered copy of
the source directory into a mod-directory subdirectory named after the
source directory's basename. -/
def run_process_and_install (rtcache mod_dir : String) (task : InstallTask)
    (exit_code : Nat) : Except InstallError (List InstallEffect) :=
  let source_path := path_join rtcache task.sourcePath
  let installer := task.targetPath
  if exit_code = 0 then
    .ok [.copy { source := source_path,
                 target := path_join mod_dir (basename source_path),
                 excludes := [] }]
  else .error (.externalToolFailure installer exit_code)

/-- Installer._install_task: blacklist check, then dispatch on jobType.
Unknown job types are skipped with a warning (no effect, no error). -/
def install_task (rtcache mod_dir : String) (task : InstallTask) (exit_code : Nat) :
    Except InstallError (List InstallEffect) :=
  if task.Id ∈ TASK_BLACKLIST then .ok []
  else if task.jobType = "NoOp" then .ok []
  else if task.jobType = "Install" then .ok (normal_install rtcache mod_dir task)
  else if task.jobType = "MultiComponentInstall" then
    .ok (multi_component_install rtcache mod_dir task)
  else if task.jobType = "BasicJsonMerge" then
    .ok [.jsonMerge (path_join rtcache task.sourcePath) (path_join mod_dir task.targetPath)]
  else if task.jobType = "DefaultBootConfig" then .ok [.bootConfigGfxJobs 0]
  else if task.jobType = "MThreadBootConfig" then .ok [.bootConfigGfxJobs 1]
  else if task.jobType = "RunProcessAndInstall" then
    run_process_and_install rtcache mod_dir task exit_code
  else .ok []

theorem zip_getElem?_getD {α β : Type} (l1 : List α) (l2 : List β) (i : Nat) (d1 : α) (d2 : β)
    (h1 : i < l1.length) (h2 : i < l2.length) :
    (l1.zip l2)[i]? = some (l1.getD i d1, l2.getD i d2) := by
  rw [List.getElem?_zip_eq_some]
  constructor
  · show l1[i]? = some (l1.getD i d1)
    rw [List.getD_eq_getElem?_getD, List.getElem?_eq_getElem h1]
    rfl
  · show l2[i]? = some (l2.getD i d2)
    rw [List.getD_eq_getElem?_getD, List.getElem?_eq_getElem h2]
    rfl

/-- C4 (amended): _multi_component_install enforces no equal-length
requirement; the comma-split, stripped source and target path lists are
zipped, so copies are applied pairwise in list order up to the shorter
list's length, and for every index below both lengths the i-th source is
copied to the i-th target with the task's exclude set. -/
theorem C4_multi_component_zip_pairwise
    (rtcache mod_dir : String) (task : InstallTask) :
    (multi_component_install rtcache mod_dir task).length
      = min ((py_split task.sourcePath ',').length) ((py_split task.targetPath ',').length)
    ∧ ∀ i : Nat, i < ((py_split task.sourcePath ',').map py_strip).length →
        i < ((py_split task.targetPath ',').map py_strip).length →
        (multi_component_install rtcache mod_dir task)[i]?
          = some (.copy { source := path_join rtcache
                            (((py_split task.sourcePath ',').map py_strip).getD i ""),
                          target := path_join mod_dir
                            (((py_split task.targetPath ',').map py_strip).getD i ""),
                          excludes := get_excludes task }) := by
  constructor
  · simp [multi_component_install, List.length_zip]
  · intro i h1 h2
    simp only [multi_component_install, List.getElem?_map]
    rw [zip_getElem?_getD _ _ i "" "" h1 h2]
    rfl

/-- Decidable equality of task outcomes, for evaluating concrete runs. -/
instance {α β : Type} [DecidableEq α] [DecidableEq β] : DecidableEq (Except α β) :=
  fun a b =>
    match a, b with
    | .ok x, .ok y =>
      if h : x = y then .isTrue (by rw [h]) else .isFalse (fun hc => h (Except.ok.inj hc))
    | .error x, .error y =>
      if h : x = y then .isTrue (by rw [h]) else .isFalse (fun hc => h (Except.error.inj hc))
    | .ok _, .error _ => .isFalse (fun hc => Except.noConfusion hc)
    | .error _, .ok _ => .isFalse (fun hc => Except.noConfusion hc)

/-- A MultiComponentInstall task whose source list has two entries but
whose target list has only one. -/
def C4task : InstallTask :=
  { Id := "multi", optionGroupId := "g", jobType := "MultiComponentInstall",
    sourcePath := "a,b", targetPath := "c", excludePaths := "",
    canSelect := "true", isSelected := "true" }

/-- C4 counterexample: the source and target lists of C4task have lengths
2 and 1, yet the job runs without any error and performs exactly one copy
(a to c); the second source entry b is silently dropped, so no equal-length
requirement is enforced. -/
theorem C4_counterexample :
    (py_split C4task.sourcePath ',').length = 2 ∧
    (py_split C4task.targetPath ',').length = 1 ∧
    multi_component_install "/rt" "/mods" C4task
      = [.copy { source := "/rt/a", target := "/mods/c", excludes := [""] }] ∧
    install_task "/rt" "/mods" C4task 0
      = .ok [.copy { source := "/rt/a", target := "/mods/c", excludes := [""] }] := by
  decide

/-- A MultiComponentInstall task with equal-length lists (and whitespace
around the second source segment, exercising the strip). -/
def C4task2 : InstallTask :=
  { Id := "multi2", optionGroupId := "g", jobType := "MultiComponentInstall",
    sourcePath := "a, b", targetPath := "c,d", excludePaths := "",
    canSelect := "true", isSelected := "true" }

/-- Witness for the amended C4 at index 1 of a two-entry task. -/
theorem C4_multi_component_zip_pairwise_witness :
    (multi_component_install "/rt" "/mods" C4task2)[1]?
      = some (.copy { source := "/rt/b", target := "/mods/d", excludes := [""] }) :=
  (C4_multi_component_zip_pairwise "/rt" "/mods" C4task2).2 1 (by decide) (by decide)

/-- C7: a RunProcessAndInstall task that is not blacklisted fails with the
re-raised process error (the spec's ExternalToolFailure) whenever the
external installer exits nonzero, performing no copy at all; the single
unfiltered copy of the source directory into the mod-directory
subdirectory named after its basename happens exactly when the exit status
is zero. -/
theorem C7_run_process_gates_copy
    (rtcache mod_dir : String) (task : InstallTask) (exit_code : Nat)
    (hbl : task.Id ∉ TASK_BLACKLIST)
    (hjt : task.jobType = "RunProcessAndInstall") :
    (exit_code ≠ 0 →
      install_task rtcache mod_dir task exit_code
        = .error (.externalToolFailure task.targetPath exit_code))
    ∧ (exit_code = 0 →
      install_task rtcache mod_dir task exit_code
        = .ok [.copy { source := path_join rtcache task.sourcePath,
                       target := path_join mod_dir
                         (basename (path_join rtcache task.sourcePath)),
                       excludes := [] }]) := by
  constructor
  · intro h
    unfold install_task run_process_and_install
    simp [hbl, hjt, h]
  · intro h
    subst h
    unfold install_task run_process_and_install
    simp [hbl, hjt]

/-- The RunProcessAndInstall task used to witness C7 (shaped like the
perfix installer task the source comments describe). -/
def C7task : InstallTask :=
  { Id := "perfixRunner", optionGroupId := "g", jobType := "RunProcessAndInstall",
    sourcePath := "PerfFix", targetPath := "RogueTechPerfFixInstaller.exe",
    excludePaths := "", canSelect := "true", isSelected := "true" }

/-- Witness for C7: with exit status 1 the task fails and no copy is
attempted. -/
theorem C7_run_process_gates_copy_witness :
    install_task "/rt" "/mods" C7task 1
      = .error (.externalToolFailure "RogueTechPerfFixInstaller.exe" 1) :=
  (C7_run_process_gates_copy "/rt" "/mods" C7task 1 (by decide) (by decide)).1 (by decide)

/-- C8: whenever the literal segment Optional occurs in the comma-split
exclude specification, the effective exclude set also contains Optionals,
and therefore a top-level directory entry literally named Optionals is
never among the entries _filtered_copy copies. -/
theorem C8_optional_implies_optionals_excluded
    (task : InstallTask) (entries : List String)
    (h : "Optional" ∈ py_split task.excludePaths ',') :
    "Optionals" ∈ get_excludes task ∧
    "Optionals" ∉ filtered_copy_entries entries (get_excludes task) := by
  have hmem : "Optionals" ∈ get_excludes task := by
    simp [get_excludes, h]
  refine ⟨hmem, ?_⟩
  unfold filtered_copy_entries
  intro hc
  rw [List.mem_filter] at hc
  have h2 := hc.2
  simp only [decide_eq_true_eq] at h2
  exact h2 hmem

/-- The Install task used to witness C8. -/
def C8task : InstallTask :=
  { Id := "core", optionGroupId := "g", jobType := "Install",
    sourcePath := "RtCore", targetPath := "", excludePaths := "Optional,Foo",
    canSelect := "true", isSelected := "true" }

/-- Witness for C8: with exclude specification Optional,Foo the entry
named Optionals is skipped. -/
theorem C8_optional_implies_optionals_excluded_witness :
    "Optionals" ∈ get_excludes C8task ∧
    "Optionals" ∉ filtered_copy_entries ["Optionals", "Core"] (get_excludes C8task) :=
  C8_optional_implies_optionals_excluded C8task ["Optionals", "Core"] (by decide)
